import Mathlib

/-!
Shallow embedding of the PoultryPal Batch Count & Allocation Ledger
(src/API/src/batch/batch.controller.js together with the mongoose models
in batch.model.js, birdCountHistory.model.js and house.model.js).

Documents are Lean structures; the mongoose collections are lists of
records inside a `DB` state; `findOne` is `List.find?`; `findOneAndUpdate`
is an atomic find-and-replace on the stored list; `document.save()` writes
the in-memory copy back over the stored record with the same `id`
(mongoose documents fetched by separate `findOne` calls are independent
in-memory copies, which the embedding reproduces by passing records by
value).  Each controller returns the new `DB` paired with a result that
mirrors the HTTP response it sends.
-/

namespace PoultryPal

/-- A batch document (batch.model.js `batchSchema`).  Counts are `Int`
because the JavaScript arithmetic is unclamped: `currentCount` is the
plain difference `originalCount - (dead + culled + offlaid)`. -/
structure BatchRec where
  id : String
  farmId : String
  originalCount : Int
  dead : Int
  culled : Int
  offlaid : Int
  isArchived : Bool
deriving Repr, DecidableEq

/-- A house document (house.model.js `houseSchema`); `capacity` is an
optional number. -/
structure HouseRec where
  id : String
  farmId : String
  capacity : Option Int
deriving Repr, DecidableEq

/-- A batch-allocation document (batch.model.js `batchAllocationSchema`). -/
structure AllocationRec where
  id : String
  batchId : String
  houseId : String
  quantity : Int
deriving Repr, DecidableEq

/-- The `beforeState` / `afterState` snapshot stored on a bird-count
history record (birdCountHistory.model.js). -/
structure CountSnapshot where
  dead : Int
  culled : Int
  offlaid : Int
  currentCount : Int
deriving Repr, DecidableEq

/-- A bird-count history document (birdCountHistory.model.js
`birdCountHistorySchema`). -/
structure HistoryRec where
  id : String
  batchId : String
  farmId : String
  userId : String
  userName : String
  dead : Int
  culled : Int
  offlaid : Int
  reason : String
  notes : String
  beforeState : CountSnapshot
  afterState : CountSnapshot
deriving Repr, DecidableEq

/-- The authenticated caller (`req.user`); `farmId` is `none` when the
user does not belong to a farm. -/
structure User where
  id : String
  farmId : Option String
  firstName : String
  lastName : String
deriving Repr, DecidableEq

/-- The persisted state: the four mongoose collections the batch
controller touches. -/
structure DB where
  batches : List BatchRec
  houses : List HouseRec
  allocations : List AllocationRec
  history : List HistoryRec
deriving Repr, DecidableEq

/-- The `currentCount` virtual on the batch schema:
`originalCount - (dead + culled + offlaid)`. -/
def currentCount (b : BatchRec) : Int :=
  b.originalCount - (b.dead + b.culled + b.offlaid)

/-- `Batch.findOne({ id: batchId, farmId })`. -/
def findBatch (db : DB) (batchId farmId : String) : Option BatchRec :=
  db.batches.find? (fun b => b.id == batchId && b.farmId == farmId)

/-- `House.findOne({ id: houseId, farmId })`. -/
def findHouse (db : DB) (houseId farmId : String) : Option HouseRec :=
  db.houses.find? (fun h => h.id == houseId && h.farmId == farmId)

/-- `allocations.reduce((sum, a) => sum + a.quantity, 0)`. -/
def sumQty (l : List AllocationRec) : Int :=
  l.foldl (fun s a => s + a.quantity) 0

/-- `BatchAllocation.find({ batchId })`. -/
def allocationsOfBatch (db : DB) (batchId : String) : List AllocationRec :=
  db.allocations.filter (fun a => a.batchId == batchId)

/-- `batch.getAllocatedCount()`: sum of quantities over the batch's
allocation records. -/
def getAllocatedCount (db : DB) (batchId : String) : Int :=
  sumQty (allocationsOfBatch db batchId)

/-- `BatchAllocation.find({ houseId })`. -/
def allocationsOfHouse (db : DB) (houseId : String) : List AllocationRec :=
  db.allocations.filter (fun a => a.houseId == houseId)

/-- Total occupancy of a house across all batches. -/
def houseOccupancy (db : DB) (houseId : String) : Int :=
  sumQty (allocationsOfHouse db houseId)

/-- JavaScript truthiness of `house.capacity`: `undefined` and `0` are
falsy, every other number is truthy. -/
def capTruthy : Option Int → Bool
  | none => false
  | some c => c != 0

/-- Atomic `findOneAndUpdate`: replace the first record matching `p` by
its image under `f`, returning the new list and the updated record
(`new: true`). -/
def findOneAndUpdateL {α : Type} (p : α → Bool) (f : α → α) :
    List α → List α × Option α
  | [] => ([], none)
  | x :: xs =>
    if p x then (f x :: xs, some (f x))
    else
      let r := findOneAndUpdateL p f xs
      (x :: r.1, r.2)

/-- `allocationDoc.save()`: write the in-memory copy `a` back over the
stored record carrying the same `id`. -/
def saveAlloc (db : DB) (a : AllocationRec) : DB :=
  { db with
    allocations := (findOneAndUpdateL (fun x => x.id == a.id) (fun _ => a)
      db.allocations).1 }

/-- Result of `updateBirdCounts` (mirrors the HTTP responses). -/
inductive UBCResult where
  | noFarm
  | invalidInput
  | notFound
  | constraintViolation (currentTotal originalCount requestedAddition : Int)
  | ok (batch : BatchRec) (historyId : String)
deriving Repr, DecidableEq

/-- In-memory increment that `{ $inc: incrementUpdate }` performs on the
stored batch document. -/
def incCounters (d c o : Option Int) (b : BatchRec) : BatchRec :=
  { b with
    dead := b.dead + d.getD 0
    culled := b.culled + c.getD 0
    offlaid := b.offlaid + o.getD 0 }

/-- `updateBirdCounts` (batch.controller.js lines 231-337): validate the
deltas, read the batch, reject if the prospective totals exceed
`originalCount`, otherwise apply the deltas through an atomic `$inc`
`findOneAndUpdate` and append one `BirdCountHistory` record.  `histId` is
the uuid the history document receives. -/
def updateBirdCounts (db : DB) (user : User) (batchId : String)
    (dead culled offlaid : Option Int) (reason notes : Option String)
    (histId : String) : DB × UBCResult :=
  match user.farmId with
  | none => (db, .noFarm)
  | some farmId =>
    if dead.isNone && culled.isNone && offlaid.isNone then
      (db, .invalidInput)
    else if dead.getD 0 < 0 || culled.getD 0 < 0 || offlaid.getD 0 < 0 then
      (db, .invalidInput)
    else
      match findBatch db batchId farmId with
      | none => (db, .notFound)
      | some batch =>
        let newDead := batch.dead + dead.getD 0
        let newCulled := batch.culled + culled.getD 0
        let newOfflaid := batch.offlaid + offlaid.getD 0
        if newDead + newCulled + newOfflaid > batch.originalCount then
          (db, .constraintViolation (batch.dead + batch.culled + batch.offlaid)
            batch.originalCount (dead.getD 0 + culled.getD 0 + offlaid.getD 0))
        else
          let beforeState : CountSnapshot :=
            ⟨batch.dead, batch.culled, batch.offlaid, currentCount batch⟩
          let r := findOneAndUpdateL
            (fun b => b.id == batchId && b.farmId == farmId)
            (incCounters dead culled offlaid) db.batches
          match r.2 with
          | none => ({ db with batches := r.1 }, .notFound)
          | some updatedBatch =>
            let entry : HistoryRec :=
              { id := histId
                batchId := batch.id
                farmId := farmId
                userId := user.id
                userName := user.firstName ++ " " ++ user.lastName
                dead := dead.getD 0
                culled := culled.getD 0
                offlaid := offlaid.getD 0
                reason := reason.getD ""
                notes := notes.getD ""
                beforeState := beforeState
                afterState := ⟨updatedBatch.dead, updatedBatch.culled,
                  updatedBatch.offlaid, currentCount updatedBatch⟩ }
            ({ db with batches := r.1, history := db.history ++ [entry] },
              .ok updatedBatch histId)

/-- Result of `createBatchAllocation`. -/
inductive AllocResult where
  | noFarm
  | notFoundBatch
  | insufficientUnallocated
      (currentCount allocatedCount unallocatedCount requestedQuantity : Int)
  | notFoundHouse
  | capacityExceededPair
  | capacityExceededHouse
      (houseCapacity currentOccupancy requestedAddition availableSpace : Int)
  | ok (allocation : AllocationRec)
deriving Repr, DecidableEq

/-- `createBatchAllocation` (batch.controller.js lines 339-425): find the
batch, check the batch's unallocated count, find the house, check the
(batch, house) pair against capacity, check total house occupancy against
capacity, then increment the existing allocation or insert a new one
(`newId` is the uuid a newly created record receives). -/
def createBatchAllocation (db : DB) (user : User) (batchId houseId : String)
    (quantity : Int) (newId : String) : DB × AllocResult :=
  match user.farmId with
  | none => (db, .noFarm)
  | some farmId =>
    match findBatch db batchId farmId with
    | none => (db, .notFoundBatch)
    | some batch =>
      let allocatedCount := getAllocatedCount db batch.id
      let unallocatedCount := currentCount batch - allocatedCount
      if quantity > unallocatedCount then
        (db, .insufficientUnallocated (currentCount batch) allocatedCount
          unallocatedCount quantity)
      else
        match findHouse db houseId farmId with
        | none => (db, .notFoundHouse)
        | some house =>
          let existingAllocation := db.allocations.find?
            (fun a => a.batchId == batchId && a.houseId == houseId)
          let existingQuantity := (existingAllocation.map (·.quantity)).getD 0
          let totalQuantity := existingQuantity + quantity
          if capTruthy house.capacity &&
              decide (totalQuantity > house.capacity.getD 0) then
            (db, .capacityExceededPair)
          else
            let currentHouseOccupancy := houseOccupancy db houseId
            let newTotalOccupancy := currentHouseOccupancy + quantity
            if capTruthy house.capacity &&
                decide (newTotalOccupancy > house.capacity.getD 0) then
              (db, .capacityExceededHouse (house.capacity.getD 0)
                currentHouseOccupancy quantity
                (house.capacity.getD 0 - currentHouseOccupancy))
            else
              match existingAllocation with
              | some a =>
                let a' := { a with quantity := a.quantity + quantity }
                (saveAlloc db a', .ok a')
              | none =>
                let a' : AllocationRec := ⟨newId, batchId, houseId, quantity⟩
                ({ db with allocations := db.allocations ++ [a'] }, .ok a')

/-- Result of `updateBatchAllocation`.  `forbidden` is the 403
"Unauthorized to update this allocation" response. -/
inductive UpdAllocResult where
  | noFarm
  | notFoundAllocation
  | forbidden
  | notFoundHouse
  | capacityExceeded
  | ok (allocation : AllocationRec)
deriving Repr, DecidableEq

/-- `updateBatchAllocation` (batch.controller.js lines 475-525): fetch the
allocation by id (unscoped), authorize through the batch's farm (403 when
the batch is not in the caller's farm), find the house, compare the new
quantity against the house capacity alone, then overwrite the
allocation's quantity. -/
def updateBatchAllocation (db : DB) (user : User) (allocationId : String)
    (quantity : Int) : DB × UpdAllocResult :=
  match user.farmId with
  | none => (db, .noFarm)
  | some farmId =>
    match db.allocations.find? (fun a => a.id == allocationId) with
    | none => (db, .notFoundAllocation)
    | some allocation =>
      match findBatch db allocation.batchId farmId with
      | none => (db, .forbidden)
      | some _batch =>
        match findHouse db allocation.houseId farmId with
        | none => (db, .notFoundHouse)
        | some house =>
          if capTruthy house.capacity &&
              decide (quantity > house.capacity.getD 0) then
            (db, .capacityExceeded)
          else
            let a' := { allocation with quantity := quantity }
            (saveAlloc db a', .ok a')

/-- Result of `transferBirds`.  `serverError` is the catch-all 500
response: on the path that creates a fresh destination allocation the
response object evaluates `toAllocation || newAllocation` with
`newAllocation` declared by `const` inside the `else` block, which raises
a `ReferenceError` after both saves have persisted. -/
inductive TransferResult where
  | noFarm
  | notFoundBatch
  | insufficientBirds
  | notFoundHouse
  | capacityExceeded
  | ok (fromAlloc toAlloc : AllocationRec)
  | serverError
deriving Repr, DecidableEq

/-- `transferBirds` (batch.controller.js lines 527-600): find the batch,
the source allocation and the destination house, check the destination
quantity of the same batch against the house capacity, then save the
debited source copy and the credited destination copy (or insert a new
destination record).  The source and destination documents are separate
in-memory copies of whatever `findOne` returned, so a transfer with
`fromHouseId = toHouseId` credits a stale copy. -/
def transferBirds (db : DB) (user : User)
    (batchId fromHouseId toHouseId : String) (quantity : Int)
    (newId : String) : DB × TransferResult :=
  match user.farmId with
  | none => (db, .noFarm)
  | some farmId =>
    match findBatch db batchId farmId with
    | none => (db, .notFoundBatch)
    | some _batch =>
      match db.allocations.find?
          (fun a => a.batchId == batchId && a.houseId == fromHouseId) with
      | none => (db, .insufficientBirds)
      | some fromAllocation =>
        if fromAllocation.quantity < quantity then
          (db, .insufficientBirds)
        else
          match findHouse db toHouseId farmId with
          | none => (db, .notFoundHouse)
          | some toHouse =>
            let toAllocation := db.allocations.find?
              (fun a => a.batchId == batchId && a.houseId == toHouseId)
            let currentToQuantity := (toAllocation.map (·.quantity)).getD 0
            let totalToQuantity := currentToQuantity + quantity
            if capTruthy toHouse.capacity &&
                decide (totalToQuantity > toHouse.capacity.getD 0) then
              (db, .capacityExceeded)
            else
              let fromSaved :=
                { fromAllocation with
                  quantity := fromAllocation.quantity - quantity }
              let db1 := saveAlloc db fromSaved
              match toAllocation with
              | some t =>
                let t' := { t with quantity := t.quantity + quantity }
                (saveAlloc db1 t', .ok fromSaved t')
              | none =>
                let newAllocation : AllocationRec :=
                  ⟨newId, batchId, toHouseId, quantity⟩
                ({ db1 with
                    allocations := db1.allocations ++ [newAllocation] },
                  .serverError)

/-- The body of the availability response. -/
structure Availability where
  batchId : String
  originalCount : Int
  dead : Int
  culled : Int
  offlaid : Int
  currentCount : Int
  allocatedCount : Int
  unallocatedCount : Int
deriving Repr, DecidableEq

/-- Result of `getBatchAvailability`. -/
inductive AvailResult where
  | noFarm
  | notFound
  | ok (a : Availability)
deriving Repr, DecidableEq

/-- `getBatchAvailability` (batch.controller.js lines 110-144): read-only
projection of the batch counters together with the allocated and
unallocated counts. -/
def getBatchAvailability (db : DB) (user : User) (batchId : String) :
    DB × AvailResult :=
  match user.farmId with
  | none => (db, .noFarm)
  | some farmId =>
    match findBatch db batchId farmId with
    | none => (db, .notFound)
    | some batch =>
      let allocatedCount := getAllocatedCount db batch.id
      let unallocatedCount := currentCount batch - allocatedCount
      (db, .ok ⟨batch.id, batch.originalCount, batch.dead, batch.culled,
        batch.offlaid, currentCount batch, allocatedCount, unallocatedCount⟩)

/-- One `updateBirdCounts` request, for reasoning about sequences of
loss-delta applications. -/
structure LossCall where
  user : User
  batchId : String
  dead : Option Int
  culled : Option Int
  offlaid : Option Int
  reason : Option String
  notes : Option String
  histId : String
deriving Repr, DecidableEq

/-- State reached by one loss-delta request. -/
def applyLossCall (db : DB) (k : LossCall) : DB :=
  (updateBirdCounts db k.user k.batchId k.dead k.culled k.offlaid
    k.reason k.notes k.histId).1

/-- State reached by a sequence of loss-delta requests. -/
def applyLossCalls (db : DB) (ks : List LossCall) : DB :=
  ks.foldl applyLossCall db

/-- The batch-ledger invariant: `dead + culled + offlaid ≤ originalCount`
for every stored batch. -/
def lossInvariant (db : DB) : Prop :=
  ∀ b ∈ db.batches, b.dead + b.culled + b.offlaid ≤ b.originalCount

/-- Invariant A of the spec: the total quantity allocated from a batch
never exceeds the batch's current count. -/
def invariantA (db : DB) : Prop :=
  ∀ b ∈ db.batches, getAllocatedCount db b.id ≤ currentCount b

/-- Invariant B of the spec: for every house with a (truthy) declared
capacity, total occupancy never exceeds the capacity. -/
def invariantB (db : DB) : Prop :=
  ∀ h ∈ db.houses, capTruthy h.capacity →
    houseOccupancy db h.id ≤ h.capacity.getD 0

/-- Concrete caller used by several witnesses and counterexamples. -/
def userF : User := ⟨"user-1", some "farm-1", "Jane", "Doe"⟩

/-- Concrete batch used by the C1 witness. -/
def batchC1 : BatchRec := ⟨"batch-1", "farm-1", 100, 0, 0, 0, false⟩

/-- One-batch state for the C1 witness. -/
def dbC1 : DB := ⟨[batchC1], [], [], []⟩

/-- Concrete loss-delta call used by the C1 witness. -/
def kC1 : LossCall :=
  ⟨userF, "batch-1", some 10, none, none, none, none, "hist-1"⟩

/-- Concrete house used by the C6 witness. -/
def houseC6 : HouseRec := ⟨"house-1", "farm-1", some 500⟩

/-- Concrete allocation used by the C6 witness. -/
def allocC6 : AllocationRec := ⟨"alloc-1", "batch-1", "house-1", 40⟩

/-- State for the C6 witness: one batch of 100 with 40 birds allocated. -/
def dbC6 : DB := ⟨[batchC1], [houseC6], [allocC6], []⟩

/-- Batch record after the C9 witness call. -/
def uC9 : BatchRec := ⟨"batch-1", "farm-1", 100, 10, 0, 0, false⟩

/-- History record written by the C9 witness call. -/
def entryC9 : HistoryRec :=
  ⟨"hist-1", "batch-1", "farm-1", "user-1", "Jane Doe", 10, 0, 0, "", "",
    ⟨0, 0, 0, 100⟩, ⟨10, 0, 0, 90⟩⟩

/-- State after the C9 witness call. -/
def dbAfterC9 : DB := ⟨[uC9], [], [], [entryC9]⟩

/-- C2 counterexample state: a batch of 100 with all 100 birds
allocated. -/
def dbC2 : DB :=
  ⟨[batchC1], [houseC6], [⟨"alloc-1", "batch-1", "house-1", 100⟩], []⟩

/-- C3 counterexample state (allocation update): house of capacity 100
holding 60 birds of one batch and 30 of another. -/
def dbC3 : DB :=
  ⟨[⟨"batch-x", "farm-1", 1000, 0, 0, 0, false⟩,
    ⟨"batch-y", "farm-1", 1000, 0, 0, 0, false⟩],
   [⟨"house-1", "farm-1", some 100⟩],
   [⟨"alloc-1", "batch-x", "house-1", 60⟩,
    ⟨"alloc-2", "batch-y", "house-1", 30⟩], []⟩

/-- C3 counterexample state (transfer): destination house of capacity 100
holding 90 birds of another batch and 5 of the transferred batch. -/
def dbC3t : DB :=
  ⟨[⟨"batch-x", "farm-1", 1000, 0, 0, 0, false⟩,
    ⟨"batch-y", "farm-1", 1000, 0, 0, 0, false⟩],
   [⟨"house-1", "farm-1", none⟩, ⟨"house-2", "farm-1", some 100⟩],
   [⟨"alloc-1", "batch-x", "house-1", 60⟩,
    ⟨"alloc-3", "batch-y", "house-2", 90⟩,
    ⟨"alloc-4", "batch-x", "house-2", 5⟩], []⟩

/-- C4 state: 300 birds of a batch in house A, house B empty with
capacity 200 and no allocation record yet. -/
def dbC4 : DB :=
  ⟨[⟨"batch-4", "farm-1", 1000, 0, 0, 0, false⟩],
   [⟨"house-A", "farm-1", none⟩, ⟨"house-B", "farm-1", some 200⟩],
   [⟨"alloc-A", "batch-4", "house-A", 300⟩], []⟩

/-- C7 counterexample state (ordering): batch with 10 unallocated birds
and no houses at all. -/
def dbC7 : DB := ⟨[⟨"batch-7", "farm-1", 10, 0, 0, 0, false⟩], [], [], []⟩

/-- C7 counterexample state (archival): an archived batch and a house
with room. -/
def dbC7b : DB :=
  ⟨[⟨"batch-7", "farm-1", 10, 0, 0, 0, true⟩],
   [⟨"house-9", "farm-1", some 50⟩], [], []⟩

/-- C8 counterexample state: an allocation whose batch and house belong
to a different farm than the caller's. -/
def dbC8 : DB :=
  ⟨[⟨"batch-x", "farm-2", 100, 0, 0, 0, false⟩],
   [⟨"house-x", "farm-2", none⟩],
   [⟨"alloc-x", "batch-x", "house-x", 10⟩], []⟩

/-- Phase of one concurrent `applyLossDelta(batchId, dead: 1)`
request: `ready` before its `findOne` precondition read, `passed` or
`rejected` after the check, `done` once its atomic `$inc` landed. -/
inductive PState where
  | ready
  | passed
  | rejected
  | done
deriving Repr, DecidableEq

/-- Interleaving semantics of N concurrent `updateBirdCounts` calls, each
adding a delta of one dead bird to one batch with `originalCount = orig` and
`culled = offlaid = 0` throughout.  A state is the persisted `dead`
counter paired with each request's phase.  `check` is one request's
`findOne` plus prospective-total validation against the counter it read
(batch.controller.js line 269); `inc` is one request's atomic `$inc`
(line 292-296), a single storage-level read-modify-write. -/
inductive LossStep (orig : Int) :
    Int × List PState → Int × List PState → Prop where
  | check (d : Int) (l r : List PState) :
      LossStep orig (d, l ++ PState.ready :: r)
        (d, l ++ (if d + 1 > orig then PState.rejected else PState.passed)
          :: r)
  | inc (d : Int) (l r : List PState) :
      LossStep orig (d, l ++ PState.passed :: r)
        (d + 1, l ++ PState.done :: r)

/-- Every request has terminated (no `ready` or `passed` phase left). -/
def Finished (s : Int × List PState) : Prop :=
  ∀ p ∈ s.2, p = PState.done ∨ p = PState.rejected

/-- Number of requests whose `$inc` has been applied. -/
def countDone (l : List PState) : Nat :=
  (l.filter (fun p => p == PState.done)).length

/-- Number of requests rejected by the precondition check. -/
def countRejected (l : List PState) : Nat :=
  (l.filter (fun p => p == PState.rejected)).length

/-- A successful `find?` splits the list at the first match. -/
theorem find?_decomp {α : Type} (p : α → Bool) (l : List α) (x : α)
    (h : l.find? p = some x) :
    ∃ l₁ l₂, l = l₁ ++ x :: l₂ ∧ ∀ y ∈ l₁, p y = false := by
  induction l with
  | nil => simp [List.find?] at h
  | cons a t ih =>
    by_cases ha : p a
    · refine ⟨[], t, ?_, by simp⟩
      simp [List.find?_cons_of_pos _ ha] at h
      simp [h]
    · rw [List.find?_cons_of_neg _ ha] at h
      obtain ⟨l₁, l₂, rfl, hl₁⟩ := ih h
      exact ⟨a :: l₁, l₂, rfl, by
        intro y hy
        rcases List.mem_cons.1 hy with rfl | hy
        · exact Bool.of_not_eq_true ha
        · exact hl₁ y hy⟩

/-- `findOneAndUpdateL` on a list split at its first match. -/
theorem findOneAndUpdateL_app {α : Type} (p : α → Bool) (f : α → α)
    (l₁ l₂ : List α) (x : α)
    (h₁ : ∀ y ∈ l₁, p y = false) (hx : p x = true) :
    findOneAndUpdateL p f (l₁ ++ x :: l₂) = (l₁ ++ f x :: l₂, some (f x)) := by
  induction l₁ with
  | nil => simp [findOneAndUpdateL, hx]
  | cons a t ih =>
    have ha : p a = false := h₁ a (List.mem_cons_self a t)
    have ht := ih (fun y hy => h₁ y (List.mem_cons_of_mem a hy))
    simp only [List.cons_append, findOneAndUpdateL, ha, Bool.false_eq_true,
      if_false, List.append_eq, ht]

/-- Running sum form of `sumQty`. -/
theorem foldl_sumQty (l : List AllocationRec) (s : Int) :
    l.foldl (fun s a => s + a.quantity) s = s + sumQty l := by
  induction l generalizing s with
  | nil => simp [sumQty]
  | cons a t ih =>
    simp only [List.foldl_cons, sumQty]
    rw [ih, ih (0 + a.quantity)]
    ring

theorem sumQty_nil : sumQty [] = 0 := rfl

theorem sumQty_cons (a : AllocationRec) (l : List AllocationRec) :
    sumQty (a :: l) = a.quantity + sumQty l := by
  simp only [sumQty, List.foldl_cons]
  rw [foldl_sumQty, foldl_sumQty]
  ring

theorem sumQty_append (l₁ l₂ : List AllocationRec) :
    sumQty (l₁ ++ l₂) = sumQty l₁ + sumQty l₂ := by
  induction l₁ with
  | nil => simp [sumQty_nil, sumQty]
  | cons a t ih => simp only [List.cons_append, sumQty_cons, ih]; ring

/-- The "at least one count" validation as a boolean fact. -/
theorem deltasPresent (d c o : Option Int)
    (hne : ¬(d = none ∧ c = none ∧ o = none)) :
    (d.isNone && c.isNone && o.isNone) = false := by
  rcases d with _ | vd <;> rcases c with _ | vc <;> rcases o with _ | vo <;>
    simp_all

/-- The non-negativity validation as a boolean fact. -/
theorem deltasNonneg (d c o : Option Int)
    (hd : 0 ≤ d.getD 0) (hc : 0 ≤ c.getD 0) (ho : 0 ≤ o.getD 0) :
    (decide (d.getD 0 < 0) || decide (c.getD 0 < 0)
      || decide (o.getD 0 < 0)) = false := by
  simp only [Bool.or_eq_false_iff, decide_eq_false_iff_not, not_lt]
  exact ⟨⟨hd, hc⟩, ho⟩

/-- Acceptance case of `updateBirdCounts`: when the supplied deltas are
well-formed and the prospective totals stay within `originalCount`, the
call succeeds, incrementing exactly the matched batch's counters by the
deltas and appending one history record. -/
theorem updateBirdCounts_ok_spec (db : DB) (user : User)
    (fid batchId : String) (d c o : Option Int) (rn nt : Option String)
    (hid : String) (b : BatchRec)
    (hfarm : user.farmId = some fid)
    (hne : ¬(d = none ∧ c = none ∧ o = none))
    (hd : 0 ≤ d.getD 0) (hc : 0 ≤ c.getD 0) (ho : 0 ≤ o.getD 0)
    (hfind : findBatch db batchId fid = some b)
    (hsum : b.dead + d.getD 0 + (b.culled + c.getD 0) + (b.offlaid + o.getD 0)
      ≤ b.originalCount) :
    ∃ l₁ l₂, db.batches = l₁ ++ b :: l₂ ∧
      (∀ y ∈ l₁, (y.id == batchId && y.farmId == fid) = false) ∧
      updateBirdCounts db user batchId d c o rn nt hid =
        ({ db with
            batches := l₁ ++ incCounters d c o b :: l₂
            history := db.history ++ [
              { id := hid
                batchId := b.id
                farmId := fid
                userId := user.id
                userName := user.firstName ++ " " ++ user.lastName
                dead := d.getD 0
                culled := c.getD 0
                offlaid := o.getD 0
                reason := rn.getD ""
                notes := nt.getD ""
                beforeState := ⟨b.dead, b.culled, b.offlaid, currentCount b⟩
                afterState := ⟨(incCounters d c o b).dead,
                  (incCounters d c o b).culled,
                  (incCounters d c o b).offlaid,
                  currentCount (incCounters d c o b)⟩ }] },
          .ok (incCounters d c o b) hid) := by
  have hfind' : db.batches.find?
      (fun y => y.id == batchId && y.farmId == fid) = some b := by
    simpa [findBatch] using hfind
  obtain ⟨l₁, l₂, hdec, hl₁⟩ := find?_decomp _ _ _ hfind'
  have hpb := List.find?_some hfind'
  refine ⟨l₁, l₂, hdec, hl₁, ?_⟩
  unfold updateBirdCounts
  rw [hfarm]
  simp only [deltasPresent d c o hne, deltasNonneg d c o hd hc ho,
    Bool.false_eq_true, if_false, hfind]
  rw [if_neg (by omega), hdec, findOneAndUpdateL_app _ _ _ _ _ hl₁ hpb]

/-- Rejection case of `updateBirdCounts`: when the prospective totals
exceed `originalCount` the call answers `constraintViolation` with the
offending numbers and changes nothing. -/
theorem updateBirdCounts_reject_spec (db : DB) (user : User)
    (fid batchId : String) (d c o : Option Int) (rn nt : Option String)
    (hid : String) (b : BatchRec)
    (hfarm : user.farmId = some fid)
    (hne : ¬(d = none ∧ c = none ∧ o = none))
    (hd : 0 ≤ d.getD 0) (hc : 0 ≤ c.getD 0) (ho : 0 ≤ o.getD 0)
    (hfind : findBatch db batchId fid = some b)
    (hsum : b.originalCount <
      b.dead + d.getD 0 + (b.culled + c.getD 0) + (b.offlaid + o.getD 0)) :
    updateBirdCounts db user batchId d c o rn nt hid =
      (db, .constraintViolation (b.dead + b.culled + b.offlaid)
        b.originalCount (d.getD 0 + c.getD 0 + o.getD 0)) := by
  unfold updateBirdCounts
  rw [hfarm]
  simp only [deltasPresent d c o hne, deltasNonneg d c o hd hc ho,
    Bool.false_eq_true, if_false, hfind]
  rw [if_pos (by omega)]

/-- Case analysis on `updateBirdCounts`: the call either leaves the state
unchanged, or the prospective-total check passed and exactly the first
batch matching the (id, farm) query had the deltas added to it. -/
theorem updateBirdCounts_state (db : DB) (user : User) (batchId : String)
    (d c o : Option Int) (rn nt : Option String) (hid : String) :
    (updateBirdCounts db user batchId d c o rn nt hid).1 = db ∨
    ∃ fid b l₁ l₂,
      user.farmId = some fid ∧
      findBatch db batchId fid = some b ∧
      db.batches = l₁ ++ b :: l₂ ∧
      b.dead + d.getD 0 + (b.culled + c.getD 0) + (b.offlaid + o.getD 0)
        ≤ b.originalCount ∧
      (updateBirdCounts db user batchId d c o rn nt hid).1.batches
        = l₁ ++ incCounters d c o b :: l₂ ∧
      (updateBirdCounts db user batchId d c o rn nt hid).1.allocations
        = db.allocations := by
  cases hf : user.farmId with
  | none => left; simp [updateBirdCounts, hf]
  | some fid =>
    by_cases h1 : (d.isNone && c.isNone && o.isNone) = true
    · left; simp [updateBirdCounts, hf, h1]
    · by_cases h2 : (decide (d.getD 0 < 0) || decide (c.getD 0 < 0)
          || decide (o.getD 0 < 0)) = true
      · left; simp [updateBirdCounts, hf, h1, h2]
      · cases hfind : findBatch db batchId fid with
        | none => left; simp [updateBirdCounts, hf, h1, h2, hfind]
        | some b =>
          have hne : ¬(d = none ∧ c = none ∧ o = none) := by
            rintro ⟨rfl, rfl, rfl⟩; simp at h1
          have h2' := h2
          simp only [Bool.or_eq_true, decide_eq_true_eq, not_or,
            not_lt] at h2'
          obtain ⟨⟨hd, hc⟩, ho⟩ := h2'
          rcases le_or_lt (b.dead + d.getD 0 + (b.culled + c.getD 0)
              + (b.offlaid + o.getD 0)) b.originalCount with hsum | hsum
          · obtain ⟨l₁, l₂, hdec, hl₁, heq⟩ :=
              updateBirdCounts_ok_spec db user fid batchId d c o rn nt hid b
                hf hne hd hc ho hfind hsum
            right
            exact ⟨fid, b, l₁, l₂, rfl, hfind, hdec, hsum,
              by rw [heq], by rw [heq]⟩
          · left
            rw [updateBirdCounts_reject_spec db user fid batchId d c o rn nt
              hid b hf hne hd hc ho hfind hsum]

/-- Any single `updateBirdCounts` call preserves the batch-ledger
invariant `dead + culled + offlaid ≤ originalCount`. -/
theorem updateBirdCounts_lossInvariant (db : DB) (user : User)
    (batchId : String) (d c o : Option Int) (rn nt : Option String)
    (hid : String) (h : lossInvariant db) :
    lossInvariant (updateBirdCounts db user batchId d c o rn nt hid).1 := by
  rcases updateBirdCounts_state db user batchId d c o rn nt hid with
    heq | ⟨fid, b, l₁, l₂, _, _, hdec, hle, hbatches, _⟩
  · rw [heq]; exact h
  · intro b' hb'
    rw [hbatches] at hb'
    rcases List.mem_append.1 hb' with h₁ | h₂
    · exact h b' (by rw [hdec]; exact List.mem_append_left _ h₁)
    · rcases List.mem_cons.1 h₂ with rfl | h₂
      · simp only [incCounters]
        omega
      · exact h b' (by
          rw [hdec]
          exact List.mem_append_right _ (List.mem_cons_of_mem _ h₂))

/-- Sequences of loss-delta calls preserve the batch-ledger invariant. -/
theorem applyLossCalls_lossInvariant (db : DB) (ks : List LossCall)
    (h : lossInvariant db) : lossInvariant (applyLossCalls db ks) := by
  induction ks generalizing db with
  | nil => exact h
  | cons k t ih =>
    exact ih _ (updateBirdCounts_lossInvariant _ _ _ _ _ _ _ _ _ h)

/-- C1: for every batch and every sequence of loss-delta applications
(`updateBirdCounts`) whose deltas are non-negative with at least one
present, each call on an existing batch either increments the batch's
dead/culled/offlaid counters by exactly the supplied deltas (when the
prospective totals do not exceed `originalCount`) or is rejected with a
`constraintViolation` leaving the state unchanged; consequently
`dead + culled + offlaid ≤ originalCount` holds after every call. -/
theorem claim_C1_loss_delta_ledger :
    (∀ (db : DB) (ks : List LossCall),
      lossInvariant db → lossInvariant (applyLossCalls db ks)) ∧
    (∀ (db : DB) (user : User) (fid batchId : String) (d c o : Option Int)
      (rn nt : Option String) (hid : String) (b : BatchRec),
      user.farmId = some fid →
      0 ≤ d.getD 0 → 0 ≤ c.getD 0 → 0 ≤ o.getD 0 →
      ¬(d = none ∧ c = none ∧ o = none) →
      findBatch db batchId fid = some b →
      if b.dead + d.getD 0 + (b.culled + c.getD 0) + (b.offlaid + o.getD 0)
          ≤ b.originalCount then
        (updateBirdCounts db user batchId d c o rn nt hid).2
            = .ok (incCounters d c o b) hid ∧
        ∃ l₁ l₂, db.batches = l₁ ++ b :: l₂ ∧
          (updateBirdCounts db user batchId d c o rn nt hid).1.batches
            = l₁ ++ incCounters d c o b :: l₂
      else
        updateBirdCounts db user batchId d c o rn nt hid =
          (db, .constraintViolation (b.dead + b.culled + b.offlaid)
            b.originalCount (d.getD 0 + c.getD 0 + o.getD 0))) := by
  constructor
  · exact applyLossCalls_lossInvariant
  · intro db user fid batchId d c o rn nt hid b hfarm hd hc ho hne hfind
    split
    next hsum =>
      obtain ⟨l₁, l₂, hdec, _, heq⟩ :=
        updateBirdCounts_ok_spec db user fid batchId d c o rn nt hid b
          hfarm hne hd hc ho hfind hsum
      exact ⟨by rw [heq], l₁, l₂, hdec, by rw [heq]⟩
    next hsum =>
      exact updateBirdCounts_reject_spec db user fid batchId d c o rn nt hid b
        hfarm hne hd hc ho hfind (by omega)

/-- Witness for C1 at a concrete input: a batch of 100 birds accepts a
delta of 10 dead, and the ledger invariant holds after the call. -/
theorem claim_C1_loss_delta_ledger_witness :
    lossInvariant (applyLossCalls dbC1 [kC1]) ∧
    (updateBirdCounts dbC1 userF "batch-1" (some 10) none none none none
      "hist-1").2 = .ok (incCounters (some 10) none none batchC1) "hist-1" := by
  constructor
  · exact claim_C1_loss_delta_ledger.1 dbC1 [kC1] (by unfold lossInvariant; decide)
  · have h := claim_C1_loss_delta_ledger.2 dbC1 userF "farm-1" "batch-1"
      (some 10) none none none none "hist-1" batchC1 rfl
      (by decide) (by decide) (by decide) (by decide) (by decide)
    rw [if_pos (by decide)] at h
    exact h.1

/-- C6: `getBatchAvailability` returns
`currentCount = originalCount - (dead + culled + offlaid)`,
`allocatedCount` = the sum of quantities over the batch's allocation
records, and `unallocatedCount = currentCount - allocatedCount`, with no
change to any stored state. -/
theorem claim_C6_get_availability :
    ∀ (db : DB) (user : User) (fid batchId : String) (b : BatchRec),
      user.farmId = some fid →
      findBatch db batchId fid = some b →
      getBatchAvailability db user batchId =
        (db, .ok ⟨b.id, b.originalCount, b.dead, b.culled, b.offlaid,
          b.originalCount - (b.dead + b.culled + b.offlaid),
          sumQty (db.allocations.filter (fun a => a.batchId == b.id)),
          (b.originalCount - (b.dead + b.culled + b.offlaid)) -
            sumQty (db.allocations.filter (fun a => a.batchId == b.id))⟩) := by
  intro db user fid batchId b hfarm hfind
  unfold getBatchAvailability
  rw [hfarm]
  simp only [hfind]
  rfl

/-- Witness for C6: on a batch of 100 birds with no losses and one
allocation of 40 the availability endpoint reports current 100,
allocated 40, unallocated 60, leaving the state untouched. -/
theorem claim_C6_get_availability_witness :
    getBatchAvailability dbC6 userF "batch-1" =
      (dbC6, .ok ⟨"batch-1", 100, 0, 0, 0, 100, 40, 60⟩) := by
  have h := claim_C6_get_availability dbC6 userF "farm-1" "batch-1" batchC1
    rfl rfl
  rw [h]
  rfl

/-- `createBatchAllocation` never touches the history collection. -/
theorem createBatchAllocation_history (db : DB) (user : User)
    (batchId houseId : String) (q : Int) (nid : String) :
    (createBatchAllocation db user batchId houseId q nid).1.history
      = db.history := by
  simp only [createBatchAllocation, saveAlloc]
  repeat' split
  all_goals rfl

/-- `updateBatchAllocation` never touches the history collection. -/
theorem updateBatchAllocation_history (db : DB) (user : User)
    (aid : String) (q : Int) :
    (updateBatchAllocation db user aid q).1.history = db.history := by
  simp only [updateBatchAllocation, saveAlloc]
  repeat' split
  all_goals rfl

/-- `transferBirds` never touches the history collection. -/
theorem transferBirds_history (db : DB) (user : User)
    (batchId f t : String) (q : Int) (nid : String) :
    (transferBirds db user batchId f t q nid).1.history = db.history := by
  simp only [transferBirds, saveAlloc]
  repeat' split
  all_goals rfl

/-- `getBatchAvailability` never changes the state at all. -/
theorem getBatchAvailability_pure (db : DB) (user : User)
    (batchId : String) : (getBatchAvailability db user batchId).1 = db := by
  simp only [getBatchAvailability]
  repeat' split
  all_goals rfl

/-- Inversion of a successful `updateBirdCounts`: the batch that was read
for the precondition check exists, the returned batch is exactly that
batch with the deltas added, and exactly one history record was appended
whose before/after snapshots are the counters around the mutation. -/
theorem updateBirdCounts_ok_inv (db : DB) (user : User) (fid batchId : String)
    (d c o : Option Int) (rn nt : Option String) (hid : String)
    (db' : DB) (u : BatchRec) (h' : String)
    (hfarm : user.farmId = some fid)
    (h : updateBirdCounts db user batchId d c o rn nt hid = (db', .ok u h')) :
    ∃ b, findBatch db batchId fid = some b ∧
      u = incCounters d c o b ∧ h' = hid ∧
      db'.history = db.history ++ [
        { id := hid, batchId := b.id, farmId := fid, userId := user.id,
          userName := user.firstName ++ " " ++ user.lastName,
          dead := d.getD 0, culled := c.getD 0, offlaid := o.getD 0,
          reason := rn.getD "", notes := nt.getD "",
          beforeState := ⟨b.dead, b.culled, b.offlaid, currentCount b⟩,
          afterState := ⟨u.dead, u.culled, u.offlaid, currentCount u⟩ }] := by
  by_cases h1 : (d.isNone && c.isNone && o.isNone) = true
  · simp [updateBirdCounts, hfarm, h1] at h
  by_cases h2 : (decide (d.getD 0 < 0) || decide (c.getD 0 < 0)
      || decide (o.getD 0 < 0)) = true
  · simp [updateBirdCounts, hfarm, h1, h2] at h
  have hne : ¬(d = none ∧ c = none ∧ o = none) := by
    rintro ⟨rfl, rfl, rfl⟩; simp at h1
  have h2' := h2
  simp only [Bool.or_eq_true, decide_eq_true_eq, not_or, not_lt] at h2'
  obtain ⟨⟨hd, hc⟩, ho⟩ := h2'
  cases hfind : findBatch db batchId fid with
  | none => simp [updateBirdCounts, hfarm, h1, h2, hfind] at h
  | some b =>
    rcases le_or_lt (b.dead + d.getD 0 + (b.culled + c.getD 0)
        + (b.offlaid + o.getD 0)) b.originalCount with hsum | hsum
    · obtain ⟨l₁, l₂, hdec, _, heq⟩ :=
        updateBirdCounts_ok_spec db user fid batchId d c o rn nt hid b
          hfarm hne hd hc ho hfind hsum
      rw [heq] at h
      rw [Prod.mk.injEq] at h
      obtain ⟨hdb, hres⟩ := h
      rw [UBCResult.ok.injEq] at hres
      obtain ⟨hu, hh⟩ := hres
      refine ⟨b, rfl, hu.symm, hh.symm, ?_⟩
      rw [← hdb, hu]
    · rw [updateBirdCounts_reject_spec db user fid batchId d c o rn nt hid b
        hfarm hne hd hc ho hfind hsum] at h
      simp at h

/-- C9: every successful `updateBirdCounts` call appends exactly one
history record whose `beforeState` is the batch's counters before the
mutation, whose `afterState` is the counters after, and whose recorded
deltas are the deltas applied; no other ledger operation ever writes,
rewrites or deletes history records. -/
theorem claim_C9_audit_trail :
    (∀ (db : DB) (user : User) (fid batchId : String) (d c o : Option Int)
      (rn nt : Option String) (hid : String) (db' : DB) (u : BatchRec)
      (h' : String),
      user.farmId = some fid →
      updateBirdCounts db user batchId d c o rn nt hid = (db', .ok u h') →
      ∃ b, findBatch db batchId fid = some b ∧
        u = incCounters d c o b ∧ h' = hid ∧
        db'.history = db.history ++ [⟨hid, b.id, fid, user.id,
          user.firstName ++ " " ++ user.lastName, d.getD 0, c.getD 0,
          o.getD 0, rn.getD "", nt.getD "",
          ⟨b.dead, b.culled, b.offlaid, currentCount b⟩,
          ⟨u.dead, u.culled, u.offlaid, currentCount u⟩⟩]) ∧
    (∀ db user batchId houseId q nid,
      (createBatchAllocation db user batchId houseId q nid).1.history
        = db.history) ∧
    (∀ db user aid q,
      (updateBatchAllocation db user aid q).1.history = db.history) ∧
    (∀ db user batchId f t q nid,
      (transferBirds db user batchId f t q nid).1.history = db.history) :=
  ⟨updateBirdCounts_ok_inv, createBatchAllocation_history,
    updateBatchAllocation_history, transferBirds_history⟩

/-- Witness for C9: the concrete call of the C1 witness appends exactly
the expected history record, and a concrete allocation call leaves
history untouched. -/
theorem claim_C9_audit_trail_witness :
    (∃ b, findBatch dbC1 "batch-1" "farm-1" = some b ∧
      uC9 = incCounters (some 10) none none b ∧
      ("hist-1" : String) = "hist-1" ∧
      dbAfterC9.history = dbC1.history ++ [⟨"hist-1", b.id, "farm-1",
        userF.id, userF.firstName ++ " " ++ userF.lastName,
        (some (10 : Int)).getD 0, (none : Option Int).getD 0,
        (none : Option Int).getD 0, (none : Option String).getD "",
        (none : Option String).getD "",
        ⟨b.dead, b.culled, b.offlaid, currentCount b⟩,
        ⟨uC9.dead, uC9.culled, uC9.offlaid, currentCount uC9⟩⟩]) ∧
    (createBatchAllocation dbC6 userF "batch-1" "house-1" 5 "alloc-2").1.history
      = dbC6.history :=
  ⟨claim_C9_audit_trail.1 dbC1 userF "farm-1" "batch-1" (some 10) none none
      none none "hist-1" dbAfterC9 uC9 "hist-1" rfl (by decide),
    claim_C9_audit_trail.2.1 dbC6 userF "batch-1" "house-1" 5 "alloc-2"⟩

/-- C2 counterexample: invariant A holds, then a loss delta of 50 dead is
accepted by `updateBirdCounts` without any allocation check, leaving the
batch with 100 allocated birds but a current count of 50. -/
theorem claim_C2_counterexample :
    invariantA dbC2 ∧
    (updateBirdCounts dbC2 userF "batch-1" (some 50) none none none none
      "hist-2").2 = .ok ⟨"batch-1", "farm-1", 100, 50, 0, 0, false⟩ "hist-2" ∧
    ¬ invariantA (updateBirdCounts dbC2 userF "batch-1" (some 50) none none
      none none "hist-2").1 :=
  ⟨by unfold invariantA; decide, by decide, by unfold invariantA; decide⟩

/-- C3 counterexample: invariant B holds, then (a) `updateBatchAllocation`
raises an allocation from 30 to 80 checking only the single quantity
against the capacity, overfilling the house to 140/100, and (b)
`transferBirds` moves 40 birds into a house already holding 95/100,
checking only the same-batch destination allocation, overfilling it to
135/100. -/
theorem claim_C3_counterexample :
    (invariantA dbC3 ∧ invariantB dbC3 ∧
      (updateBatchAllocation dbC3 userF "alloc-2" 80).2
        = .ok ⟨"alloc-2", "batch-y", "house-1", 80⟩ ∧
      ¬ invariantB (updateBatchAllocation dbC3 userF "alloc-2" 80).1) ∧
    (invariantA dbC3t ∧ invariantB dbC3t ∧
      (transferBirds dbC3t userF "batch-x" "house-1" "house-2" 40 "new-1").2
        = .ok ⟨"alloc-1", "batch-x", "house-1", 20⟩
            ⟨"alloc-4", "batch-x", "house-2", 45⟩ ∧
      ¬ invariantB
        (transferBirds dbC3t userF "batch-x" "house-1" "house-2" 40
          "new-1").1) :=
  ⟨⟨by unfold invariantA; decide, by unfold invariantB; decide, by decide,
      by unfold invariantB; decide⟩,
    ⟨by unfold invariantA; decide, by unfold invariantB; decide, by decide,
      by unfold invariantB; decide⟩⟩

/-- C4: evaluating `transferBirds` at the spec's own scenario (move 100
birds from a house holding 300 into an empty house of capacity 200 that
has no allocation record yet).  The debit and the credit both persist —
source 200, destination 100 — but the call then answers the 500
`serverError` instead of returning the from/to records, because the
response expression reads `newAllocation` outside the `const` block that
declared it. -/
theorem claim_C4_transfer_scope_bug :
    transferBirds dbC4 userF "batch-4" "house-A" "house-B" 100 "alloc-new" =
      (⟨[⟨"batch-4", "farm-1", 1000, 0, 0, 0, false⟩],
        [⟨"house-A", "farm-1", none⟩, ⟨"house-B", "farm-1", some 200⟩],
        [⟨"alloc-A", "batch-4", "house-A", 200⟩,
         ⟨"alloc-new", "batch-4", "house-B", 100⟩], []⟩,
       .serverError) := by
  decide

/-- C7 counterexample: (a) with the house missing and the quantity also
exceeding the unallocated count, `createBatchAllocation` reports
`insufficientUnallocated`, not the house's not-found error, because the
unallocated check runs before the house lookup; (b) an allocation into an
archived batch is accepted — the archived flag is never consulted. -/
theorem claim_C7_counterexample :
    ((createBatchAllocation dbC7 userF "batch-7" "house-9" 20 "new-7").2
        = .insufficientUnallocated 10 0 10 20 ∧
      (createBatchAllocation dbC7 userF "batch-7" "house-9" 20 "new-7").2
        ≠ .notFoundHouse) ∧
    (createBatchAllocation dbC7b userF "batch-7" "house-9" 5 "new-7b").2
      = .ok ⟨"new-7b", "batch-7", "house-9", 5⟩ :=
  ⟨⟨by decide, by decide⟩, by decide⟩

/-- C8 counterexample: `updateBatchAllocation` on an allocation whose
batch belongs to another farm answers the 403 `forbidden` response, not
the not-found rejection the spec requires for cross-tenant access. -/
theorem claim_C8_counterexample :
    updateBatchAllocation dbC8 userF "alloc-x" 5 = (dbC8, .forbidden) ∧
    (updateBatchAllocation dbC8 userF "alloc-x" 5).2
      ≠ .notFoundAllocation :=
  ⟨by decide, by decide⟩

/-- In a list whose ids are distinct, no element in front of `a` carries
`a`'s id. -/
theorem nodup_front_no_id (l₁ l₂ : List AllocationRec) (a : AllocationRec)
    (h : ((l₁ ++ a :: l₂).map (fun x => x.id)).Nodup) :
    ∀ y ∈ l₁, (y.id == a.id) = false := by
  intro y hy
  simp only [List.map_append, List.map_cons] at h
  have h' := (List.nodup_middle).1 h
  have hnot := (List.nodup_cons.1 h').1
  have : y.id ∈ l₁.map (fun x => x.id) ++ l₂.map (fun x => x.id) :=
    List.mem_append_left _ (List.mem_map_of_mem _ hy)
  rcases eq_or_ne y.id a.id with he | he
  · exact absurd (he ▸ this) hnot
  · exact beq_eq_false_iff_ne.2 he

/-- Saving an in-memory copy whose id is that of `a` overwrites `a` in
place when no element in front of `a` shares the id. -/
theorem saveAlloc_decomp (db : DB) (l₁ l₂ : List AllocationRec)
    (a a' : AllocationRec) (hdec : db.allocations = l₁ ++ a :: l₂)
    (hl₁ : ∀ y ∈ l₁, (y.id == a.id) = false) (hid : a'.id = a.id) :
    saveAlloc db a' = { db with allocations := l₁ ++ a' :: l₂ } := by
  unfold saveAlloc
  rw [hdec, hid, findOneAndUpdateL_app _ _ _ _ _ hl₁ (by simp)]

/-- How a single filtered quantity sum changes when one record is
replaced in place. -/
theorem sumQty_filter_replace (p : AllocationRec → Bool)
    (l₁ l₂ : List AllocationRec) (a a' : AllocationRec) :
    sumQty ((l₁ ++ a' :: l₂).filter p) =
      sumQty ((l₁ ++ a :: l₂).filter p)
        - (if p a then a.quantity else 0)
        + (if p a' then a'.quantity else 0) := by
  simp only [List.filter_append, List.filter_cons, sumQty_append]
  by_cases ha : p a <;> by_cases ha' : p a' <;>
    simp [ha, ha', sumQty_cons] <;> ring

/-- How a single filtered quantity sum changes when a record is
appended. -/
theorem sumQty_filter_append_one (p : AllocationRec → Bool)
    (l : List AllocationRec) (a : AllocationRec) :
    sumQty ((l ++ [a]).filter p) =
      sumQty (l.filter p) + (if p a then a.quantity else 0) := by
  simp only [List.filter_append, List.filter_cons, List.filter_nil,
    sumQty_append]
  by_cases ha : p a <;> simp [ha, sumQty_cons, sumQty_nil]

/-- With distinct ids, `find?` by an element's id returns that element. -/
theorem find?_id_of_mem (l : List AllocationRec) (t : AllocationRec)
    (hnd : (l.map (fun x => x.id)).Nodup) (ht : t ∈ l) :
    l.find? (fun x => x.id == t.id) = some t := by
  induction l with
  | nil => simp at ht
  | cons a rest ih =>
    simp only [List.map_cons, List.nodup_cons] at hnd
    rcases List.mem_cons.1 ht with rfl | hrest
    · simp [List.find?_cons_of_pos]
    · have hne : (a.id == t.id) = false := by
        refine beq_eq_false_iff_ne.2 fun he => hnd.1 ?_
        exact he ▸ List.mem_map_of_mem _ hrest
      rw [List.find?_cons_of_neg _ (by simp [hne])]
      exact ih hnd.2 hrest

/-- C10: a transfer with `fromHouseId = toHouseId`, enough birds in the
allocation and room under the house capacity is accepted, and the single
(batch, house) allocation record ends at `original + quantity`: the
credited stale in-memory copy overwrites the already-saved debit. -/
theorem claim_C10_same_house_transfer :
    ∀ (db : DB) (user : User) (fid batchId houseId : String) (q : Int)
      (nid : String) (b : BatchRec) (house : HouseRec) (a : AllocationRec),
      user.farmId = some fid →
      findBatch db batchId fid = some b →
      findHouse db houseId fid = some house →
      db.allocations.find?
        (fun x => x.batchId == batchId && x.houseId == houseId) = some a →
      (db.allocations.map (fun x => x.id)).Nodup →
      q ≤ a.quantity →
      (capTruthy house.capacity = true →
        a.quantity + q ≤ house.capacity.getD 0) →
      ∃ l₁ l₂, db.allocations = l₁ ++ a :: l₂ ∧
        transferBirds db user batchId houseId houseId q nid =
          ({ db with allocations :=
              l₁ ++ { a with quantity := a.quantity + q } :: l₂ },
           .ok { a with quantity := a.quantity - q }
             { a with quantity := a.quantity + q }) := by
  intro db user fid batchId houseId q nid b house a hfarm hfb hfh hfa hnd hq
    hcap
  obtain ⟨l₁, l₂, hdec, _⟩ := find?_decomp _ _ _ hfa
  have hl₁id : ∀ y ∈ l₁, (y.id == a.id) = false :=
    nodup_front_no_id l₁ l₂ a (hdec ▸ hnd)
  refine ⟨l₁, l₂, hdec, ?_⟩
  have hcapb : (capTruthy house.capacity
      && decide (a.quantity + q > house.capacity.getD 0)) = false := by
    cases hct : capTruthy house.capacity
    · simp
    · simp only [Bool.true_and, decide_eq_false_iff_not, not_lt]
      exact hcap hct
  have hsave1 := saveAlloc_decomp db l₁ l₂ a
    { a with quantity := a.quantity - q } hdec hl₁id rfl
  have hsave2 := saveAlloc_decomp
    { db with allocations := l₁ ++ { a with quantity := a.quantity - q } :: l₂ }
    l₁ l₂ { a with quantity := a.quantity - q }
    { a with quantity := a.quantity + q } rfl hl₁id rfl
  unfold transferBirds
  rw [hfarm]
  simp only [hfb, hfa, Option.map_some', Option.getD_some]
  rw [if_neg (not_lt.2 hq)]
  simp only [hfh, hcapb, Bool.false_eq_true, if_false, hsave1, hsave2]

/-- Witness for C10: transferring 30 birds from house-1 to house-1 on an
allocation of 40 is accepted and leaves the record at 70. -/
theorem claim_C10_same_house_transfer_witness :
    ∃ l₁ l₂, dbC6.allocations = l₁ ++ allocC6 :: l₂ ∧
      transferBirds dbC6 userF "batch-1" "house-1" "house-1" 30 "new-x" =
        ({ dbC6 with allocations :=
            l₁ ++ { allocC6 with quantity := allocC6.quantity + 30 } :: l₂ },
         .ok { allocC6 with quantity := allocC6.quantity - 30 }
           { allocC6 with quantity := allocC6.quantity + 30 }) :=
  claim_C10_same_house_transfer dbC6 userF "farm-1" "batch-1" "house-1" 30
    "new-x" batchC1 houseC6 allocC6 rfl rfl rfl rfl (by decide) (by decide)
    (by decide)

/-- A false conjunction of a truthy capacity and an exceedance test gives
the bound. -/
theorem cap_and_false_le (copt : Option Int) (x : Int)
    (h : (capTruthy copt && decide (x > copt.getD 0)) = false)
    (hct : capTruthy copt = true) : x ≤ copt.getD 0 := by
  rw [hct, Bool.true_and, decide_eq_false_iff_not] at h
  exact not_lt.1 h

/-- Case analysis on `createBatchAllocation`: either nothing changed, or
every check passed (unallocated count, house capacity over all batches)
and the (batch, house) allocation was incremented in place or freshly
inserted. -/
theorem createBatchAllocation_state (db : DB) (user : User)
    (bId hId : String) (q : Int) (nid : String) :
    (createBatchAllocation db user bId hId q nid).1 = db ∨
    ∃ fid b house,
      user.farmId = some fid ∧
      findBatch db bId fid = some b ∧
      q ≤ currentCount b - getAllocatedCount db b.id ∧
      findHouse db hId fid = some house ∧
      (capTruthy house.capacity = true →
        houseOccupancy db hId + q ≤ house.capacity.getD 0) ∧
      ((∃ a, db.allocations.find?
          (fun x => x.batchId == bId && x.houseId == hId) = some a ∧
        (createBatchAllocation db user bId hId q nid).1
          = saveAlloc db { a with quantity := a.quantity + q }) ∨
       (db.allocations.find?
          (fun x => x.batchId == bId && x.houseId == hId) = none ∧
        (createBatchAllocation db user bId hId q nid).1
          = { db with
              allocations := db.allocations ++ [⟨nid, bId, hId, q⟩] })) := by
  cases hf : user.farmId with
  | none => left; simp [createBatchAllocation, hf]
  | some fid =>
    cases hfb : findBatch db bId fid with
    | none => left; simp [createBatchAllocation, hf, hfb]
    | some b =>
      by_cases hq : q > currentCount b - getAllocatedCount db b.id
      · left; simp [createBatchAllocation, hf, hfb, hq]
      · cases hfh : findHouse db hId fid with
        | none => left; simp [createBatchAllocation, hf, hfb, hq, hfh]
        | some house =>
          cases hfa : db.allocations.find?
              (fun x => x.batchId == bId && x.houseId == hId) with
          | some a =>
            by_cases hc1 : capTruthy house.capacity = true
                ∧ house.capacity.getD 0 < a.quantity + q
            · left
              simp [createBatchAllocation, hf, hfb, hq, hfh, hfa, hc1]
            · by_cases hc2 : capTruthy house.capacity = true
                  ∧ house.capacity.getD 0 < houseOccupancy db hId + q
              · left
                simp [createBatchAllocation, hf, hfb, hq, hfh, hfa, hc1, hc2]
                all_goals split <;> rfl
              · right
                refine ⟨fid, b, house, rfl, hfb, not_lt.1 hq, hfh,
                  fun hct => not_lt.1 fun hlt => hc2 ⟨hct, hlt⟩, ?_⟩
                left
                refine ⟨a, rfl, ?_⟩
                simp [createBatchAllocation, hf, hfb, hq, hfh, hfa, hc1, hc2]
          | none =>
            by_cases hc1 : capTruthy house.capacity = true
                ∧ house.capacity.getD 0 < q
            · left
              simp [createBatchAllocation, hf, hfb, hq, hfh, hfa, hc1]
            · by_cases hc2 : capTruthy house.capacity = true
                  ∧ house.capacity.getD 0 < houseOccupancy db hId + q
              · left
                simp [createBatchAllocation, hf, hfb, hq, hfh, hfa, hc1, hc2]
                all_goals split <;> rfl
              · right
                refine ⟨fid, b, house, rfl, hfb, not_lt.1 hq, hfh,
                  fun hct => not_lt.1 fun hlt => hc2 ⟨hct, hlt⟩, ?_⟩
                right
                refine ⟨rfl, ?_⟩
                simp [createBatchAllocation, hf, hfb, hq, hfh, hfa, hc1, hc2]

/-- Case analysis on `transferBirds`: either nothing changed, or the
source allocation had enough birds and was debited in place, while the
destination allocation of the same batch was credited in place or
freshly inserted (the latter path then answers the 500 response). -/
theorem transferBirds_state (db : DB) (user : User)
    (bId fH tH : String) (q : Int) (nid : String) :
    (transferBirds db user bId fH tH q nid).1 = db ∨
    ∃ fid afrom,
      user.farmId = some fid ∧
      db.allocations.find?
        (fun x => x.batchId == bId && x.houseId == fH) = some afrom ∧
      q ≤ afrom.quantity ∧
      ((∃ t, db.allocations.find?
          (fun x => x.batchId == bId && x.houseId == tH) = some t ∧
        (transferBirds db user bId fH tH q nid).1
          = saveAlloc
              (saveAlloc db { afrom with quantity := afrom.quantity - q })
              { t with quantity := t.quantity + q }) ∨
       (db.allocations.find?
          (fun x => x.batchId == bId && x.houseId == tH) = none ∧
        (transferBirds db user bId fH tH q nid).1
          = { saveAlloc db { afrom with quantity := afrom.quantity - q } with
              allocations :=
                (saveAlloc db
                  { afrom with
                    quantity := afrom.quantity - q }).allocations
                ++ [⟨nid, bId, tH, q⟩] })) := by
  cases hf : user.farmId with
  | none => left; simp [transferBirds, hf]
  | some fid =>
    cases hfb : findBatch db bId fid with
    | none => left; simp [transferBirds, hf, hfb]
    | some b =>
      cases hfa : db.allocations.find?
          (fun x => x.batchId == bId && x.houseId == fH) with
      | none => left; simp [transferBirds, hf, hfb, hfa]
      | some afrom =>
        by_cases hq : afrom.quantity < q
        · left; simp [transferBirds, hf, hfb, hfa, hq]
        · cases hfh : findHouse db tH fid with
          | none => left; simp [transferBirds, hf, hfb, hfa, hq, hfh]
          | some house =>
            cases hft : db.allocations.find?
                (fun x => x.batchId == bId && x.houseId == tH) with
            | some t =>
              by_cases hcap : capTruthy house.capacity = true
                  ∧ house.capacity.getD 0 < t.quantity + q
              · left
                simp [transferBirds, hf, hfb, hfa, hq, hfh, hft, hcap]
              · right
                refine ⟨fid, afrom, rfl, rfl, not_lt.1 hq, ?_⟩
                left
                refine ⟨t, rfl, ?_⟩
                simp [transferBirds, hf, hfb, hfa, hq, hfh, hft, hcap]
            | none =>
              by_cases hcap : capTruthy house.capacity = true
                  ∧ house.capacity.getD 0 < q
              · left
                simp [transferBirds, hf, hfb, hfa, hq, hfh, hft, hcap]
              · right
                refine ⟨fid, afrom, rfl, rfl, not_lt.1 hq, ?_⟩
                right
                refine ⟨rfl, ?_⟩
                simp [transferBirds, hf, hfb, hfa, hq, hfh, hft, hcap]

/-- Two members of a list with pairwise-distinct ids that share an id are
equal. -/
theorem nodup_mem_eq_of_id {α : Type} (idf : α → String) (l : List α)
    (hnd : (l.map idf).Nodup) (x y : α) (hx : x ∈ l) (hy : y ∈ l)
    (hid : idf x = idf y) : x = y := by
  induction l with
  | nil => simp at hx
  | cons a rest ih =>
    simp only [List.map_cons, List.nodup_cons] at hnd
    rcases List.mem_cons.1 hx with rfl | hx' <;>
      rcases List.mem_cons.1 hy with rfl | hy'
    · rfl
    · exact absurd (hid ▸ List.mem_map_of_mem idf hy') hnd.1
    · exact absurd (hid ▸ List.mem_map_of_mem idf hx') hnd.1
    · exact ih hnd.2 hx' hy'

/-- `saveAlloc` splits the allocation list at the overwritten record. -/
theorem saveAlloc_split (db : DB) (a a' : AllocationRec)
    (hnd : (db.allocations.map (fun x => x.id)).Nodup)
    (hmem : a ∈ db.allocations) (hid : a'.id = a.id) :
    ∃ l₁ l₂, db.allocations = l₁ ++ a :: l₂ ∧
      (saveAlloc db a').allocations = l₁ ++ a' :: l₂ := by
  obtain ⟨l₁, l₂, hdec⟩ := List.append_of_mem hmem
  have hl₁ := nodup_front_no_id l₁ l₂ a (hdec ▸ hnd)
  exact ⟨l₁, l₂, hdec,
    by rw [saveAlloc_decomp db l₁ l₂ a a' hdec hl₁ hid]⟩

/-- Per-batch allocated count after a `save`. -/
theorem getAllocatedCount_saveAlloc (db : DB) (a a' : AllocationRec)
    (bid : String) (hnd : (db.allocations.map (fun x => x.id)).Nodup)
    (hmem : a ∈ db.allocations) (hid : a'.id = a.id) :
    getAllocatedCount (saveAlloc db a') bid =
      getAllocatedCount db bid
        - (if a.batchId == bid then a.quantity else 0)
        + (if a'.batchId == bid then a'.quantity else 0) := by
  obtain ⟨l₁, l₂, hdec, hsave⟩ := saveAlloc_split db a a' hnd hmem hid
  unfold getAllocatedCount allocationsOfBatch
  rw [hsave, hdec]
  exact sumQty_filter_replace _ l₁ l₂ a a'

/-- Per-house occupancy after a `save`. -/
theorem houseOccupancy_saveAlloc (db : DB) (a a' : AllocationRec)
    (hid2 : String) (hnd : (db.allocations.map (fun x => x.id)).Nodup)
    (hmem : a ∈ db.allocations) (hid : a'.id = a.id) :
    houseOccupancy (saveAlloc db a') hid2 =
      houseOccupancy db hid2
        - (if a.houseId == hid2 then a.quantity else 0)
        + (if a'.houseId == hid2 then a'.quantity else 0) := by
  obtain ⟨l₁, l₂, hdec, hsave⟩ := saveAlloc_split db a a' hnd hmem hid
  unfold houseOccupancy allocationsOfHouse
  rw [hsave, hdec]
  exact sumQty_filter_replace _ l₁ l₂ a a'

/-- Per-batch allocated count after inserting a fresh record. -/
theorem getAllocatedCount_append (db : DB) (x : AllocationRec)
    (bid : String) :
    getAllocatedCount { db with allocations := db.allocations ++ [x] } bid =
      getAllocatedCount db bid
        + (if x.batchId == bid then x.quantity else 0) := by
  unfold getAllocatedCount allocationsOfBatch
  exact sumQty_filter_append_one _ db.allocations x

/-- Per-house occupancy after inserting a fresh record. -/
theorem houseOccupancy_append (db : DB) (x : AllocationRec)
    (hid2 : String) :
    houseOccupancy { db with allocations := db.allocations ++ [x] } hid2 =
      houseOccupancy db hid2
        + (if x.houseId == hid2 then x.quantity else 0) := by
  unfold houseOccupancy allocationsOfHouse
  exact sumQty_filter_append_one _ db.allocations x

/-- `saveAlloc` keeps the id family of the allocation list. -/
theorem saveAlloc_ids (db : DB) (a a' : AllocationRec)
    (hnd : (db.allocations.map (fun x => x.id)).Nodup)
    (hmem : a ∈ db.allocations) (hid : a'.id = a.id) :
    ((saveAlloc db a').allocations).map (fun x => x.id)
      = db.allocations.map (fun x => x.id) := by
  obtain ⟨l₁, l₂, hdec, hsave⟩ := saveAlloc_split db a a' hnd hmem hid
  rw [hsave, hdec]
  simp [hid]

/-- Records other than the overwritten one survive a `saveAlloc`. -/
theorem saveAlloc_mem (db : DB) (a a' t : AllocationRec)
    (hnd : (db.allocations.map (fun x => x.id)).Nodup)
    (hmem : a ∈ db.allocations) (hid : a'.id = a.id)
    (ht : t ∈ db.allocations) (hne : t ≠ a) :
    t ∈ (saveAlloc db a').allocations := by
  obtain ⟨l₁, l₂, hdec, hsave⟩ := saveAlloc_split db a a' hnd hmem hid
  rw [hsave]
  rw [hdec] at ht
  rcases List.mem_append.1 ht with h | h
  · exact List.mem_append_left _ h
  · rcases List.mem_cons.1 h with rfl | h
    · exact absurd rfl hne
    · exact List.mem_append_right _ (List.mem_cons_of_mem _ h)

/-- C2 amended: invariant A (`sum of a batch's allocations ≤
currentCount`) is preserved by `createBatchAllocation` (which checks the
unallocated count) and by `transferBirds` between two distinct houses
(which moves quantity within the batch); it is NOT preserved by
`updateBirdCounts`, `updateBatchAllocation`, or a same-house transfer
(see the counterexample). -/
theorem claim_C2_amended :
    ∀ (db : DB) (user : User) (bId hId fH tH : String) (q : Int)
      (nid nid' : String),
      (db.allocations.map (fun x => x.id)).Nodup →
      (db.batches.map (fun x => x.id)).Nodup →
      invariantA db →
      invariantA (createBatchAllocation db user bId hId q nid).1 ∧
      (fH ≠ tH → invariantA (transferBirds db user bId fH tH q nid').1) := by
  intro db user bId hId fH tH q nid nid' hndA hndB hA
  constructor
  · rcases createBatchAllocation_state db user bId hId q nid with
      heq | ⟨fid, b, house, hfarm, hfb, hq, hfh, hcap, hmut⟩
    · rw [heq]; exact hA
    · have hfb' : db.batches.find?
          (fun y => y.id == bId && y.farmId == fid) = some b := by
        simpa [findBatch] using hfb
      have hbmem := List.mem_of_find?_eq_some hfb'
      have hbid : b.id = bId ∧ b.farmId = fid := by
        have := List.find?_some hfb'
        simpa [Bool.and_eq_true, beq_iff_eq] using this
      rcases hmut with ⟨a, hfa, hmut⟩ | ⟨hfa, hmut⟩
      · have hamem := List.mem_of_find?_eq_some hfa
        have haprops : a.batchId = bId ∧ a.houseId = hId := by
          have := List.find?_some hfa
          simpa [Bool.and_eq_true, beq_iff_eq] using this
        rw [hmut]
        intro b' hb'
        have hb'mem : b' ∈ db.batches := hb'
        have hs := getAllocatedCount_saveAlloc db a
          { a with quantity := a.quantity + q } b'.id hndA hamem rfl
        have hA' := hA b' hb'mem
        by_cases hcb : bId = b'.id
        · have hb'b : b' = b :=
            nodup_mem_eq_of_id (fun x => x.id) db.batches hndB b' b
              hb'mem hbmem (by simp only []; rw [← hcb, hbid.1])
          rw [show getAllocatedCount (saveAlloc db
              { a with quantity := a.quantity + q }) b'.id = _ from hs]
          simp only [haprops.1, hcb, beq_self_eq_true, if_true]
          rw [hb'b] at hA' ⊢
          omega
        · rw [show getAllocatedCount (saveAlloc db
              { a with quantity := a.quantity + q }) b'.id = _ from hs]
          have hfalse : (bId == b'.id) = false := beq_eq_false_iff_ne.2 hcb
          simp only [haprops.1, hfalse, Bool.false_eq_true, if_false]
          omega
      · rw [hmut]
        intro b' hb'
        have hb'mem : b' ∈ db.batches := hb'
        have hs := getAllocatedCount_append db ⟨nid, bId, hId, q⟩ b'.id
        have hA' := hA b' hb'mem
        by_cases hcb : bId = b'.id
        · have hb'b : b' = b :=
            nodup_mem_eq_of_id (fun x => x.id) db.batches hndB b' b
              hb'mem hbmem (by simp only []; rw [← hcb, hbid.1])
          rw [show getAllocatedCount _ b'.id = _ from hs]
          simp only [hcb, beq_self_eq_true, if_true]
          rw [hb'b] at hA' ⊢
          omega
        · rw [show getAllocatedCount _ b'.id = _ from hs]
          have hfalse : (bId == b'.id) = false := beq_eq_false_iff_ne.2 hcb
          simp only [hfalse, Bool.false_eq_true, if_false]
          omega
  · intro hne
    rcases transferBirds_state db user bId fH tH q nid' with
      heq | ⟨fid, afrom, hfarm, hfa, hq2, hmut⟩
    · rw [heq]; exact hA
    · have hamem := List.mem_of_find?_eq_some hfa
      have haprops : afrom.batchId = bId ∧ afrom.houseId = fH := by
        have := List.find?_some hfa
        simpa [Bool.and_eq_true, beq_iff_eq] using this
      have hnd1 : (((saveAlloc db
          { afrom with quantity := afrom.quantity - q }).allocations).map
            (fun x => x.id)).Nodup := by
        rw [saveAlloc_ids db afrom { afrom with quantity := afrom.quantity - q } hndA hamem rfl]
        exact hndA
      have hs1 := fun bid => getAllocatedCount_saveAlloc db afrom
        { afrom with quantity := afrom.quantity - q } bid hndA hamem rfl
      rcases hmut with ⟨t, hft, hmut⟩ | ⟨hft, hmut⟩
      · have htmem := List.mem_of_find?_eq_some hft
        have htprops : t.batchId = bId ∧ t.houseId = tH := by
          have := List.find?_some hft
          simpa [Bool.and_eq_true, beq_iff_eq] using this
        have htne : t ≠ afrom := fun h =>
          hne (by rw [← haprops.2, ← htprops.2, h])
        have htmem1 : t ∈ (saveAlloc db
            { afrom with quantity := afrom.quantity - q }).allocations :=
          saveAlloc_mem db afrom { afrom with quantity := afrom.quantity - q } t hndA hamem rfl htmem htne
        have hs2 := fun bid => getAllocatedCount_saveAlloc
          (saveAlloc db { afrom with quantity := afrom.quantity - q }) t
          { t with quantity := t.quantity + q } bid hnd1 htmem1 rfl
        rw [hmut]
        intro b' hb'
        have hb'mem : b' ∈ db.batches := hb'
        have hA' := hA b' hb'mem
        rw [hs2 b'.id, hs1 b'.id]
        by_cases hcb : bId = b'.id
        · have htrue : (bId == b'.id) = true := beq_iff_eq.2 hcb
          simp only [haprops.1, htprops.1, htrue, if_true]
          omega
        · have hfalse : (bId == b'.id) = false := beq_eq_false_iff_ne.2 hcb
          simp only [haprops.1, htprops.1, hfalse, Bool.false_eq_true,
            if_false]
          omega
      · rw [hmut]
        intro b' hb'
        have hb'mem : b' ∈ db.batches := hb'
        have hA' := hA b' hb'mem
        have happ := getAllocatedCount_append
          (saveAlloc db { afrom with quantity := afrom.quantity - q })
          ⟨nid', bId, tH, q⟩ b'.id
        rw [happ, hs1 b'.id]
        by_cases hcb : bId = b'.id
        · have htrue : (bId == b'.id) = true := beq_iff_eq.2 hcb
          simp only [haprops.1, htrue, if_true]
          omega
        · have hfalse : (bId == b'.id) = false := beq_eq_false_iff_ne.2 hcb
          simp only [haprops.1, hfalse, Bool.false_eq_true, if_false]
          omega

/-- Witness for C2 amended: on a concrete consistent state both an
allocate call and a distinct-house transfer keep invariant A. -/
theorem claim_C2_amended_witness :
    invariantA (createBatchAllocation dbC6 userF "batch-1" "house-1" 10
      "new-a").1 ∧
    ("house-1" ≠ "house-2" →
      invariantA (transferBirds dbC6 userF "batch-1" "house-1" "house-2" 10
        "new-b").1) :=
  claim_C2_amended dbC6 userF "batch-1" "house-1" "house-1" "house-2" 10
    "new-a" "new-b" (by decide) (by decide) (by unfold invariantA; decide)

/-- C3 amended: invariant B (house occupancy bounded by a truthy declared
capacity) is preserved by `createBatchAllocation`, which re-checks total
occupancy across all batches; it is NOT preserved by
`updateBatchAllocation` (which compares only the new quantity against
the capacity) or by `transferBirds` (whose destination check ignores
other batches' allocations) — see the counterexample. -/
theorem claim_C3_amended :
    ∀ (db : DB) (user : User) (bId hId : String) (q : Int) (nid : String),
      (db.allocations.map (fun x => x.id)).Nodup →
      (db.houses.map (fun x => x.id)).Nodup →
      invariantB db →
      invariantB (createBatchAllocation db user bId hId q nid).1 := by
  intro db user bId hId q nid hndA hndH hB
  rcases createBatchAllocation_state db user bId hId q nid with
    heq | ⟨fid, b, house, hfarm, hfb, hq, hfh, hcap, hmut⟩
  · rw [heq]; exact hB
  · have hfh' : db.houses.find?
        (fun y => y.id == hId && y.farmId == fid) = some house := by
      simpa [findHouse] using hfh
    have hhmem := List.mem_of_find?_eq_some hfh'
    have hhid : house.id = hId ∧ house.farmId = fid := by
      have := List.find?_some hfh'
      simpa [Bool.and_eq_true, beq_iff_eq] using this
    rcases hmut with ⟨a, hfa, hmut⟩ | ⟨hfa, hmut⟩
    · have hamem := List.mem_of_find?_eq_some hfa
      have haprops : a.batchId = bId ∧ a.houseId = hId := by
        have := List.find?_some hfa
        simpa [Bool.and_eq_true, beq_iff_eq] using this
      rw [hmut]
      intro h' hh' hct
      have hh'mem : h' ∈ db.houses := hh'
      have hs := houseOccupancy_saveAlloc db a
        { a with quantity := a.quantity + q } h'.id hndA hamem rfl
      rw [show houseOccupancy (saveAlloc db
          { a with quantity := a.quantity + q }) h'.id = _ from hs]
      by_cases hch : hId = h'.id
      · have hh'h : h' = house :=
          nodup_mem_eq_of_id (fun x => x.id) db.houses hndH h' house
            hh'mem hhmem (by simp only []; rw [← hch, hhid.1])
        subst hh'h
        have hb := hcap hct
        have htrue : (hId == h'.id) = true := beq_iff_eq.2 hch
        simp only [haprops.2, htrue, if_true]
        rw [← hch]
        omega
      · have hB' := hB h' hh'mem hct
        have hfalse : (hId == h'.id) = false := beq_eq_false_iff_ne.2 hch
        simp only [haprops.2, hfalse, Bool.false_eq_true, if_false]
        omega
    · rw [hmut]
      intro h' hh' hct
      have hh'mem : h' ∈ db.houses := hh'
      have hs := houseOccupancy_append db ⟨nid, bId, hId, q⟩ h'.id
      rw [show houseOccupancy _ h'.id = _ from hs]
      by_cases hch : hId = h'.id
      · have hh'h : h' = house :=
          nodup_mem_eq_of_id (fun x => x.id) db.houses hndH h' house
            hh'mem hhmem (by simp only []; rw [← hch, hhid.1])
        subst hh'h
        have hb := hcap hct
        have htrue : (hId == h'.id) = true := beq_iff_eq.2 hch
        simp only [htrue, if_true]
        rw [← hch]
        omega
      · have hB' := hB h' hh'mem hct
        have hfalse : (hId == h'.id) = false := beq_eq_false_iff_ne.2 hch
        simp only [hfalse, Bool.false_eq_true, if_false]
        omega

/-- Witness for C3 amended: a concrete allocate call keeps invariant B. -/
theorem claim_C3_amended_witness :
    invariantB (createBatchAllocation dbC6 userF "batch-1" "house-1" 10
      "new-c").1 :=
  claim_C3_amended dbC6 userF "batch-1" "house-1" 10 "new-c"
    (by decide) (by decide) (by unfold invariantB; decide)

/-- C7 amended: `createBatchAllocation` validates in the order (1) batch
exists in the caller's farm — the archived flag is never consulted —
(2) quantity against the batch's unallocated count, (3) house exists in
the caller's farm, (4) capacity.  In particular, when the house is
missing and the quantity also exceeds the unallocated count, the
reported failure is `insufficientUnallocated`, not the house's
not-found error. -/
theorem claim_C7_amended :
    ∀ (db : DB) (user : User) (fid bId hId : String) (q : Int)
      (nid : String),
      user.farmId = some fid →
      (findBatch db bId fid = none →
        createBatchAllocation db user bId hId q nid
          = (db, .notFoundBatch)) ∧
      (∀ b, findBatch db bId fid = some b →
        q > currentCount b - getAllocatedCount db b.id →
        createBatchAllocation db user bId hId q nid =
          (db, .insufficientUnallocated (currentCount b)
            (getAllocatedCount db b.id)
            (currentCount b - getAllocatedCount db b.id) q)) ∧
      (∀ b, findBatch db bId fid = some b →
        q ≤ currentCount b - getAllocatedCount db b.id →
        findHouse db hId fid = none →
        createBatchAllocation db user bId hId q nid
          = (db, .notFoundHouse)) := by
  intro db user fid bId hId q nid hfarm
  refine ⟨?_, ?_, ?_⟩
  · intro h
    simp [createBatchAllocation, hfarm, h]
  · intro b hfb hgt
    simp [createBatchAllocation, hfarm, hfb, hgt]
  · intro b hfb hle hfh
    simp [createBatchAllocation, hfarm, hfb, not_lt.2 hle, hfh]

/-- Witness for C7 amended at concrete inputs: missing batch, excess
quantity with a missing house, and missing house with an acceptable
quantity. -/
theorem claim_C7_amended_witness :
    createBatchAllocation dbC7 userF "no-batch" "house-9" 5 "w7a"
      = (dbC7, .notFoundBatch) ∧
    createBatchAllocation dbC7 userF "batch-7" "house-9" 20 "w7b"
      = (dbC7, .insufficientUnallocated 10 0 10 20) ∧
    createBatchAllocation dbC7 userF "batch-7" "house-9" 5 "w7c"
      = (dbC7, .notFoundHouse) := by
  have h := claim_C7_amended dbC7 userF "farm-1" "batch-7" "house-9"
  refine ⟨(claim_C7_amended dbC7 userF "farm-1" "no-batch" "house-9" 5 "w7a"
      rfl).1 rfl, ?_, ?_⟩
  · exact ((h 20 "w7b" rfl).2.1 ⟨"batch-7", "farm-1", 10, 0, 0, 0, false⟩
      rfl (by decide)).trans (by decide)
  · exact ((h 5 "w7c" rfl).2.2 ⟨"batch-7", "farm-1", 10, 0, 0, 0, false⟩
      rfl (by decide) rfl)

/-- C8 amended: a batch outside the caller's farm makes
`updateBirdCounts`, `getBatchAvailability`, `createBatchAllocation` and
`transferBirds` answer the not-found rejection, but
`updateBatchAllocation` — whose allocation lookup is not tenant-scoped —
answers the 403 `forbidden` response when the allocation's batch belongs
to another farm. -/
theorem claim_C8_amended :
    ∀ (db : DB) (user : User) (fid : String),
      user.farmId = some fid →
      (∀ (batchId : String) (d c o : Option Int) (rn nt : Option String)
        (hid : String),
        ¬(d = none ∧ c = none ∧ o = none) →
        0 ≤ d.getD 0 → 0 ≤ c.getD 0 → 0 ≤ o.getD 0 →
        findBatch db batchId fid = none →
        updateBirdCounts db user batchId d c o rn nt hid
          = (db, .notFound)) ∧
      (∀ batchId, findBatch db batchId fid = none →
        getBatchAvailability db user batchId = (db, .notFound)) ∧
      (∀ bId hId q nid, findBatch db bId fid = none →
        createBatchAllocation db user bId hId q nid
          = (db, .notFoundBatch)) ∧
      (∀ bId fH tH q nid, findBatch db bId fid = none →
        transferBirds db user bId fH tH q nid = (db, .notFoundBatch)) ∧
      (∀ aid q a, db.allocations.find? (fun x => x.id == aid) = some a →
        findBatch db a.batchId fid = none →
        updateBatchAllocation db user aid q = (db, .forbidden)) := by
  intro db user fid hfarm
  refine ⟨?_, ?_, ?_, ?_, ?_⟩
  · intro batchId d c o rn nt hid hne hd hc ho hfb
    unfold updateBirdCounts
    rw [hfarm]
    simp [deltasPresent d c o hne, deltasNonneg d c o hd hc ho, hfb]
  · intro batchId hfb
    simp [getBatchAvailability, hfarm, hfb]
  · intro bId hId q nid hfb
    simp [createBatchAllocation, hfarm, hfb]
  · intro bId fH tH q nid hfb
    simp [transferBirds, hfarm, hfb]
  · intro aid q a hfa hfb
    simp [updateBatchAllocation, hfarm, hfa, hfb]

/-- Witness for C8 amended: against a state whose batch, house and
allocation belong to farm-2, a farm-1 caller gets not-found from the
batch-scoped operations and 403 from `updateBatchAllocation`. -/
theorem claim_C8_amended_witness :
    updateBirdCounts dbC8 userF "batch-x" (some 1) none none none none "w8"
      = (dbC8, .notFound) ∧
    getBatchAvailability dbC8 userF "batch-x" = (dbC8, .notFound) ∧
    createBatchAllocation dbC8 userF "batch-x" "house-x" 1 "w8b"
      = (dbC8, .notFoundBatch) ∧
    transferBirds dbC8 userF "batch-x" "house-x" "house-x" 1 "w8c"
      = (dbC8, .notFoundBatch) ∧
    updateBatchAllocation dbC8 userF "alloc-x" 5 = (dbC8, .forbidden) := by
  have h := claim_C8_amended dbC8 userF "farm-1" rfl
  exact ⟨h.1 "batch-x" (some 1) none none none none "w8" (by decide)
      (by decide) (by decide) (by decide) rfl,
    h.2.1 "batch-x" rfl,
    h.2.2.1 "batch-x" "house-x" 1 "w8b" rfl,
    h.2.2.2.1 "batch-x" "house-x" "house-x" 1 "w8c" rfl,
    h.2.2.2.2 "alloc-x" 5 ⟨"alloc-x", "batch-x", "house-x", 10⟩ rfl rfl⟩

theorem countDone_append (l r : List PState) :
    countDone (l ++ r) = countDone l + countDone r := by
  simp [countDone, List.filter_append]

theorem countRejected_append (l r : List PState) :
    countRejected (l ++ r) = countRejected l + countRejected r := by
  simp [countRejected, List.filter_append]

theorem countDone_le_length (l : List PState) : countDone l ≤ l.length :=
  List.length_filter_le _ l

/-- One interleaved step preserves the counting invariant: the persisted
counter equals the number of applied increments, and (when the request
count is within `originalCount`) no request is ever rejected. -/
theorem lossStep_inv (orig : Int) (N : Nat) (hN : (N : Int) ≤ orig)
    (s s' : Int × List PState) (hstep : LossStep orig s s')
    (hinv : s.1 = (countDone s.2 : Int) ∧ countRejected s.2 = 0 ∧
      s.2.length = N) :
    s'.1 = (countDone s'.2 : Int) ∧ countRejected s'.2 = 0 ∧
      s'.2.length = N := by
  obtain ⟨hd, hr, hlen⟩ := hinv
  rcases hstep with ⟨d, l, r⟩ | ⟨d, l, r⟩
  · have hdl : countDone l + countDone r ≤ l.length + r.length :=
      Nat.add_le_add (countDone_le_length l) (countDone_le_length r)
    have hlen' : l.length + (r.length + 1) = N := by simpa using hlen
    have hdval : d = (countDone l + countDone r : Nat) := by
      simpa [countDone_append, countDone] using hd
    have hnogt : ¬(d + 1 > orig) := by
      rw [hdval]
      have : (countDone l + countDone r : Int) + 1 ≤ (N : Int) := by
        omega
      omega
    rw [if_neg hnogt]
    refine ⟨?_, ?_, ?_⟩
    · simpa [countDone_append, countDone] using hd
    · simpa [countRejected_append, countRejected] using hr
    · simpa using hlen
  · refine ⟨?_, ?_, ?_⟩
    · rw [countDone_append] at hd ⊢
      simp only [countDone, List.filter_cons] at hd ⊢
      simp at hd ⊢
      omega
    · simpa [countRejected_append, countRejected] using hr
    · simpa using hlen

/-- The counting invariant holds in every state reachable from N ready
requests over a zero-loss batch. -/
theorem lossRun_inv (orig : Int) (N : Nat) (hN : (N : Int) ≤ orig)
    (s : Int × List PState)
    (hrun : Relation.ReflTransGen (LossStep orig)
      (0, List.replicate N PState.ready) s) :
    s.1 = (countDone s.2 : Int) ∧ countRejected s.2 = 0 ∧
      s.2.length = N := by
  induction hrun with
  | refl =>
    refine ⟨?_, ?_, by simp⟩
    · simp [countDone, List.filter_replicate]
    · simp [countRejected, List.filter_replicate]
  | tail _ hstep ih => exact lossStep_inv orig N hN _ _ hstep ih

/-- C5: N concurrent loss-delta applications of one dead bird each,
against a batch with `originalCount = orig ≥ N` and zero losses, always
terminate with `dead = N` — every check passes against whatever counter
value it reads, and every atomic `$inc` lands; no update is lost and
none is rejected. -/
theorem claim_C5_concurrent_loss_deltas :
    ∀ (N : Nat) (orig : Int), (N : Int) ≤ orig →
      ∀ s, Relation.ReflTransGen (LossStep orig)
          (0, List.replicate N PState.ready) s →
        Finished s →
        s.1 = (N : Int) ∧ ∀ p ∈ s.2, p = PState.done := by
  intro N orig hN s hrun hfin
  obtain ⟨hd, hr, hlen⟩ := lossRun_inv orig N hN s hrun
  have hall : ∀ p ∈ s.2, p = PState.done := by
    intro p hp
    rcases hfin p hp with h | h
    · exact h
    · exfalso
      have : (p == PState.rejected) = true := by simp [h]
      have hmem : p ∈ s.2.filter (fun p => p == PState.rejected) :=
        List.mem_filter.2 ⟨hp, this⟩
      rw [List.length_eq_zero.1 hr] at hmem
      simp at hmem
  refine ⟨?_, hall⟩
  have hfilter : s.2.filter (fun p => p == PState.done) = s.2 :=
    List.filter_eq_self.2 fun p hp => by simp [hall p hp]
  rw [hd]
  rw [show countDone s.2 = N from by rw [countDone, hfilter, hlen]]

/-- Witness for C5: one concrete request against a batch of 100 runs its
check, passes, applies its increment, and the final counter is 1 with
the request done. -/
theorem claim_C5_concurrent_loss_deltas_witness :
    ((1 : Int), [PState.done]).1 = ((1 : Nat) : Int) ∧
    ∀ p ∈ ((1 : Int), [PState.done]).2, p = PState.done := by
  have step1 : LossStep 100 (0, [PState.ready]) (0, [PState.passed]) := by
    have h := @LossStep.check 100 0 ([] : List PState) []
    simpa using h
  have step2 : LossStep 100 (0, [PState.passed]) (1, [PState.done]) := by
    have h := @LossStep.inc 100 0 ([] : List PState) []
    simpa using h
  exact claim_C5_concurrent_loss_deltas 1 100 (by norm_num)
    (1, [PState.done])
    (Relation.ReflTransGen.tail
      (Relation.ReflTransGen.tail Relation.ReflTransGen.refl step1) step2)
    (by unfold Finished; decide)
